import Mathlib

/-!
# Verification of the aliasforge generation engine

Shallow embedding of the core of the repository: the `RNG` random sampling
primitive (`src/rng.ts`, `js/rng.js`), the `DataStore` dataset cleaning
pipeline (`src/data-store.ts`, `js/data-store.js`), and the three generators
`NameGen`, `UsernameGen`, `DOBGen` built on top of it.

Modelling conventions:
* JavaScript numbers appearing as integer arguments are modelled as `Int`
  (so that non-positive inputs are expressible); values that the code
  guarantees to be non-negative are modelled as `Nat`.
* Entropy (`crypto.getRandomValues` filling one `Uint32`) is modelled as an
  explicit list of `Nat` draws, each draw standing for one 32-bit value.
  A function that loops on entropy returns `none` when the supplied draw
  list is exhausted before the loop accepts a value; on the real code this
  corresponds to the loop still running.
* Thrown `RangeError`s / `Error`s are modelled with the explicit error type
  `JsError`, following the error taxonomy of the specification.
* JavaScript string primitives (`toLowerCase`, `toUpperCase`, `split`,
  `trim`, `padStart`, template literals) are modelled character-wise over
  `List Char`; the ASCII-range case mappings coincide with Lean's
  `Char.toLower` / `Char.toUpper`.
-/

/-! ## Definitions: shallow embedding of the source -/

/-- Error taxonomy of the specification (§7).  The code raises `RangeError`
(for `InvalidArgument`) and plain `Error`s for the other three. -/
inductive JsError where
  | invalidArgument
  | notInit
  | sourceUnavailable
  | emptyDataset
deriving DecidableEq, Repr

/-- `true` exactly on the `Except.error` constructor. -/
def isError {α : Type} (r : Except JsError α) : Bool :=
  match r with
  | .error _ => true
  | .ok _ => false

/-- `threshold = 2 ** 32 - ((2 ** 32) % max)` from `randomInt`. -/
def rngThreshold (max : Nat) : Nat := 2 ^ 32 - 2 ^ 32 % max

/-- The `do … while (val >= threshold)` rejection loop of `randomInt`,
run against an explicit list of 32-bit draws.  Returns the accepted value
reduced `% max` together with the unconsumed draws, or `none` when every
supplied draw is rejected (on the real code the loop would still be
running). -/
def rejectionRun (max : Nat) : List Nat → Option (Nat × List Nat)
  | [] => none
  | d :: ds => if d < rngThreshold max then some (d % max, ds) else rejectionRun max ds

/-- `RNG.randomInt` body after validation: the `max === 1` short circuit,
then the rejection loop. -/
def randomIntRun (max : Nat) (draws : List Nat) : Option (Nat × List Nat) :=
  if max = 1 then some (0, draws) else rejectionRun max draws

/-- `randomInt` as in `src/rng.ts` (second variant) and the spec: rejects
`max <= 0` (the `Number.isInteger` guard is vacuous over `Int`) and
`max > 2^32` before touching entropy.  Result `ok none` means the rejection
loop exhausted the supplied draws. -/
def randomIntTS (max : Int) (draws : List Nat) : Except JsError (Option Nat) :=
  if max ≤ 0 then .error .invalidArgument
  else if max > 2 ^ 32 then .error .invalidArgument
  else .ok ((randomIntRun max.toNat draws).map Prod.fst)

/-- `randomInt` as in `js/rng.js` (`part_000`), the bundled build (`part_004`
§1) and the first variant of `src/rng.ts`: identical to `randomIntTS`
except that the `max > 2^32` guard is absent. -/
def randomIntJS (max : Int) (draws : List Nat) : Except JsError (Option Nat) :=
  if max ≤ 0 then .error .invalidArgument
  else .ok ((randomIntRun max.toNat draws).map Prod.fst)

/-- `RNG.randomRange(min, max)` restricted to validated inputs, threading
the draw list.  The second `src/rng.ts` variant raises `RangeError` for
non-integer inputs, `min > max`, and span `max - min + 1 > 2^32`; those
validation paths are NOT modelled here — theorems about callers
(`generateDate`) either establish `min ≤ max` or carry an explicit span
bound as hypothesis, so that what this definition omits is unreachable on
their stated domain.  The `min === max` early return of that variant and
the `randomInt(1)` short circuit of the other variants agree: no entropy
is consumed and `min` is returned. -/
def randomRangeRun (min max : Int) (draws : List Nat) : Option (Int × List Nat) :=
  if min = max then some (min, draws)
  else (randomIntRun (max - min + 1).toNat draws).map (fun p => (min + (p.1 : Int), p.2))

/-- `str.toLowerCase()` character-wise. -/
def strLower (s : String) : String := ⟨s.data.map Char.toLower⟩

/-- `str.toUpperCase()` character-wise. -/
def strUpper (s : String) : String := ⟨s.data.map Char.toUpper⟩

/-- A delimiter of the `/[._]/` split used by the casing transforms. -/
def isCaseDelim (c : Char) : Bool := c = '.' || c = '_'

/-- `str.split(regex)` for a character-class regex: splits on every
matching character, dropping the separators; `"".split` gives `[""]` and
consecutive separators give empty segments, as in JavaScript. -/
def splitOnPred (p : Char → Bool) : List Char → List (List Char)
  | [] => [[]]
  | c :: cs =>
    if p c then [] :: splitOnPred p cs
    else
      match splitOnPred p cs with
      | [] => [[c]]
      | s :: ss => (c :: s) :: ss

/-- `capitalise` from `js/username-gen.js` / `src`: empty string maps to
itself, otherwise the first character is upper-cased and the rest kept. -/
def capitaliseL : List Char → List Char
  | [] => []
  | c :: cs => Char.toUpper c :: cs

/-- `capitalise` on `String`. -/
def capitalise (s : String) : String := ⟨capitaliseL s.data⟩

/-- The `camel` transform of `CASE_TRANSFORMS`: lowercase, split on
`.`/`_`, keep the first segment, capitalise every later segment, join. -/
def camel (s : String) : String :=
  match splitOnPred isCaseDelim (s.data.map Char.toLower) with
  | [] => ⟨[]⟩
  | p :: ps => ⟨p ++ (ps.map capitaliseL).flatten⟩

/-- The `pascal` transform of `CASE_TRANSFORMS`: lowercase, split on
`.`/`_`, capitalise every segment, join. -/
def pascal (s : String) : String :=
  ⟨((splitOnPred isCaseDelim (s.data.map Char.toLower)).map capitaliseL).flatten⟩

/-- `CASE_TRANSFORMS[casing] ?? CASE_TRANSFORMS['lower']`: an unrecognized
casing id falls back to `lower`. -/
def caseTransform (casing : String) (s : String) : String :=
  if casing = "lower" then strLower s
  else if casing = "upper" then strUpper s
  else if casing = "camel" then camel s
  else if casing = "pascal" then pascal s
  else strLower s

/-- `String(val).padStart(n, '0')`. -/
def padStartZeros (n : Nat) (s : String) : String :=
  ⟨List.replicate (n - s.length) '0' ++ s.data⟩

/-- `randomDigits(n)` applied to the value `v` accepted by the inner
`RNG.randomInt(10 ** n)` call: decimal rendering, zero-padded to width
`n`. -/
def randomDigits (n : Nat) (v : Nat) : String := padStartZeros n (toString v)

/-- `${first[0]}` — indexing a JS string out of range yields `undefined`,
which a template literal renders as the text `undefined`. -/
def charAt0 (s : String) : String :=
  if s.isEmpty then "undefined" else ⟨s.data.take 1⟩

/-- The `PATTERNS` table: builds the raw pre-casing username from the
lowercased name fragments and the value `v` accepted by the pattern's
single `randomDigits` call (ignored by `first.last` / `initial_last`).
An unrecognized pattern id falls back to `first_digits`. -/
def buildPattern (pattern : String) (first last : String) (v : Nat) : String :=
  if pattern = "first.last" then first ++ "." ++ last
  else if pattern = "first_digits" then first ++ randomDigits 4 v
  else if pattern = "initial_last" then charAt0 first ++ "." ++ last
  else if pattern = "initial_last_digits" then charAt0 first ++ "." ++ last ++ randomDigits 3 v
  else if pattern = "firstlast_digits" then first ++ last ++ randomDigits 2 v
  else if pattern = "last_digits" then last ++ randomDigits 3 v
  else first ++ randomDigits 4 v

/-- `FullName` — the value triple produced by `NameGen.generate`. -/
structure FullName where
  first : String
  last : String
  full : String
deriving DecidableEq, Repr

/-- `UsernameGen.generate(opts)` with a pinned `opts.name` (the
`name ?? NameGen.generate()` fallback is not taken): builds the raw string
from the lowercased fragments, then applies the casing transform.  `v` is
the value accepted by the pattern's digit draw. -/
def usernameGenerate (pattern casing : String) (name : FullName) (v : Nat) : String :=
  caseTransform casing (buildPattern pattern (strLower name.first) (strLower name.last) v)

/-- The anchored regular expression `^<pre>\d{k}$`: the string is the
literal `pre` followed by exactly `k` decimal digits. -/
def matchesWordDigits (pre : List Char) (k : Nat) (s : String) : Bool :=
  decide (s.data.take pre.length = pre) &&
  decide ((s.data.drop pre.length).length = k) &&
  (s.data.drop pre.length).all Char.isDigit

/-- The character class `\s` of JavaScript regular expressions and
`String.prototype.trim` (ECMA-262 WhiteSpace ∪ LineTerminator). -/
def isJsWhitespace (c : Char) : Bool :=
  decide (c.toNat ∈ [9, 10, 11, 12, 13, 32, 160, 5760,
    8192, 8193, 8194, 8195, 8196, 8197, 8198, 8199, 8200, 8201, 8202,
    8232, 8233, 8239, 8287, 12288, 65279])

/-- The apostrophe character `'` (codepoint 39). -/
def apostropheChar : Char := Char.ofNat 39

/-- The newline character (codepoint 10) on which `raw.split('\n')`
splits. -/
def newlineChar : Char := Char.ofNat 10

/-- The byte-order mark `﻿` removed by `raw.replace(/^﻿/, '')`. -/
def bomChar : Char := Char.ofNat 65279

/-- The `\p{L}` class of the name-validity regex, modelled on the ASCII
range (where it coincides with `A`–`Z`/`a`–`z`); the dataset claims of the
specification involve ASCII names only. -/
def isNameLetter (c : Char) : Bool := c.isAlpha

/-- One character of the name-validity class `[\p{L}\s'\-.]`. -/
def isNameChar (c : Char) : Bool :=
  isNameLetter c || isJsWhitespace c || c = apostropheChar || c = '-' || c = '.'

/-- `isValidName` from `data-store`: length in `[2, 40]` and every
character drawn from `[\p{L}\s'\-.]` (the regex `+` needs one character,
implied by the length bound). -/
def isValidName (s : String) : Bool :=
  decide (2 ≤ s.data.length) && decide (s.data.length ≤ 40) && s.data.all isNameChar

/-- `String.prototype.trim`: strip leading and trailing whitespace. -/
def trimJs (s : String) : String :=
  ⟨((s.data.dropWhile isJsWhitespace).reverse.dropWhile isJsWhitespace).reverse⟩

/-- `raw.replace(/^﻿/, '')`: strip one leading byte-order mark. -/
def stripBOM : List Char → List Char
  | [] => []
  | c :: cs => if c = bomChar then cs else c :: cs

/-- The `seen`-set deduplication filter of `loadFile`, keyed on
`line.toLowerCase()`, keeping first occurrences in order. -/
def dedupCIGo (seen : List String) : List String → List String
  | [] => []
  | s :: rest =>
    if seen.contains (strLower s) then dedupCIGo seen rest
    else s :: dedupCIGo (strLower s :: seen) rest

/-- Case-insensitive first-seen deduplication. -/
def dedupCI (l : List String) : List String := dedupCIGo [] l

/-- A delimiter of the Title Case segmentation regex `[-\s]`. -/
def isTitleDelim (c : Char) : Bool := c = '-' || isJsWhitespace c

/-- `str.split(/(?<=[-\s])/)`: cut immediately after every `[-\s]`
character, keeping the delimiters; a match at the end of the string
produces no trailing empty segment (ECMA-262 split semantics). -/
def splitAfter (p : Char → Bool) : List Char → List (List Char)
  | [] => []
  | c :: cs =>
    if p c then [c] :: splitAfter p cs
    else
      match splitAfter p cs with
      | [] => [[c]]
      | s :: ss => (c :: s) :: ss

/-- `part.charAt(0).toUpperCase() + part.slice(1).toLowerCase()`
(`charAt(0)` of an empty part is the empty string). -/
def titleCasePart : List Char → List Char
  | [] => []
  | c :: cs => Char.toUpper c :: cs.map Char.toLower

/-- `toTitleCase` from `data-store`: capitalise the first character of
each segment following a hyphen/whitespace, lowercase the rest. -/
def toTitleCase (s : String) : String :=
  ⟨((splitAfter isTitleDelim s.data).map titleCasePart).flatten⟩

/-- The cleaning pipeline of `loadFile`: BOM strip, newline split,
per-line trim, validity filter, case-insensitive dedup, Title Case. -/
def cleanNames (raw : String) : List String :=
  ((((splitOnPred (fun c => c = newlineChar) (stripBOM raw.data)).map
      (fun l => trimJs ⟨l⟩)).filter isValidName) |> dedupCI).map toTitleCase

/-- `loadFile` given the transport outcome (`none` = fetch failed):
`SourceUnavailable` on transport failure, `EmptyDataset` when cleaning
leaves nothing, otherwise the cleaned list. -/
def loadFile (fetched : Option String) : Except JsError (List String) :=
  match fetched with
  | none => .error .sourceUnavailable
  | some raw =>
    let names := cleanNames raw
    if names.isEmpty then .error .emptyDataset else .ok names

/-- The module-level mutable state of `DataStore`: the two pools, `null`
before a successful `init`. -/
structure StoreState where
  firstNames : Option (List String)
  lastNames : Option (List String)
deriving DecidableEq, Repr

/-- A store on which `init` has never succeeded. -/
def freshStore : StoreState := ⟨none, none⟩

/-- `RNG.pick(arr)`: `InvalidArgument` on an empty array, otherwise the
element at index `randomInt(arr.length)` (in bounds by C2). -/
def pickRun (pool : List String) (draws : List Nat) : Except JsError (Option String) :=
  if pool.length = 0 then .error .invalidArgument
  else .ok ((randomIntRun pool.length draws).map (fun p => pool.getD p.1 ""))

/-- `DataStore.init`: `[firstNames, lastNames] = await Promise.all(...)`.
The destructuring assignment runs only when both loads resolve, so on any
failure the previous pools are kept and the first error is surfaced. -/
def storeInit (s : StoreState) (fetchFirst fetchLast : Option String) :
    StoreState × Option JsError :=
  match loadFile fetchFirst, loadFile fetchLast with
  | .ok f, .ok l => (⟨some f, some l⟩, none)
  | .error e, _ => (s, some e)
  | .ok _, .error e => (s, some e)

/-- `DataStore.getFirstName`. -/
def getFirstName (s : StoreState) (draws : List Nat) : Except JsError (Option String) :=
  match s.firstNames with
  | none => .error .notInit
  | some pool => pickRun pool draws

/-- `DataStore.getLastName`. -/
def getLastName (s : StoreState) (draws : List Nat) : Except JsError (Option String) :=
  match s.lastNames with
  | none => .error .notInit
  | some pool => pickRun pool draws

/-- `DataStore.isReady`. -/
def storeIsReady (s : StoreState) : Bool :=
  s.firstNames.isSome && s.lastNames.isSome

/-- A calendar date at local midnight; `month` is 0-indexed. -/
structure SimpleDate where
  year : Int
  month : Nat
  day : Nat
deriving DecidableEq, Repr

/-- Gregorian leap-year rule implemented by the JavaScript `Date` API. -/
def isLeapYear (y : Int) : Bool :=
  (y % 4 = 0 && !(y % 100 = 0)) || y % 400 = 0

/-- `new Date(y, m + 1, 0).getDate()`: the number of days of 0-indexed
month `m` in year `y`.  Faithful only while the constructed date lies
inside the JavaScript `Date` range (±10^8 days from the epoch, roughly
years −271821 to 275760): outside it `getDate()` is `NaN` and the
subsequent `randomInt(NaN)` raises `RangeError`, a path this total
function does not model — theorems that reach it therefore restrict the
birth year to that range by hypothesis. -/
def daysInMonth (y : Int) (m : Nat) : Nat :=
  match m with
  | 0 => 31
  | 1 => if isLeapYear y then 29 else 28
  | 2 => 31
  | 3 => 30
  | 4 => 31
  | 5 => 30
  | 6 => 31
  | 7 => 31
  | 8 => 30
  | 9 => 31
  | 10 => 30
  | _ => 31

/-- The sampling body shared by every `generateDate` variant:
`ageYears = randomRange(minAge, maxAge)`, `birthYear = year - ageYears`,
`birthMonth = randomInt(12)`, `birthDay = 1 + randomInt(daysInMonth)`.
Returns the date and the unconsumed draws, `none` when the draws run
out. -/
def dobSample (minAge maxAge : Int) (today : SimpleDate) (draws : List Nat) :
    Option (SimpleDate × List Nat) :=
  match randomRangeRun minAge maxAge draws with
  | none => none
  | some (ageYears, ds1) =>
    match randomIntRun 12 ds1 with
    | none => none
    | some (birthMonth, ds2) =>
      match randomIntRun (daysInMonth (today.year - ageYears) birthMonth) ds2 with
      | none => none
      | some (d0, ds3) => some (⟨today.year - ageYears, birthMonth, 1 + d0⟩, ds3)

/-- `generateDate` of `src/dob-gen.ts` and `js/dob-gen.js`: ages below 1
raise, `minAge > maxAge` raises (equality accepted). -/
def generateDateTS (minAge maxAge : Int) (today : SimpleDate) (draws : List Nat) :
    Except JsError (Option SimpleDate) :=
  if minAge < 1 ∨ maxAge < 1 then .error .invalidArgument
  else if minAge > maxAge then .error .invalidArgument
  else .ok ((dobSample minAge maxAge today draws).map Prod.fst)

/-- `generateDate` of the bundled build (`part_004` §5): identical except
that the second guard is `minAge >= maxAge`, so equal ages also raise. -/
def generateDateBundled (minAge maxAge : Int) (today : SimpleDate) (draws : List Nat) :
    Except JsError (Option SimpleDate) :=
  if minAge < 1 ∨ maxAge < 1 then .error .invalidArgument
  else if minAge ≥ maxAge then .error .invalidArgument
  else .ok ((dobSample minAge maxAge today draws).map Prod.fst)

/-- `a`'s month/day falls strictly after `b`'s month/day. -/
def laterInYear (a b : SimpleDate) : Bool :=
  a.month > b.month || (a.month = b.month && a.day > b.day)

/-- Age in whole years implied by birth date `dob` on day `today`: the
year difference, minus one when the birthday is still ahead in the
year. -/
def impliedAge (today dob : SimpleDate) : Int :=
  today.year - dob.year - (if laterInYear dob today then 1 else 0)

/-- The last-name retry loop.  `i` is the index of the next draw (so far
`i` draws were made), `fuel` the number of re-draws the `attempts < 100`
guard still allows.  Returns the total number of draws and the accepted
(or final) last name. -/
def lastNameLoop (first : String) (draws : Nat → String) (i : Nat) : Nat → Nat × String
  | 0 => (i + 1, draws i)
  | fuel + 1 =>
    if strLower (draws i) = strLower first
    then lastNameLoop first draws (i + 1) fuel
    else (i + 1, draws i)

/-- `NameGen.generate()` given the first-name draw and the last-name draw
stream: the loop starts with 99 permitted re-draws (`attempts < 100`). -/
def nameGenerate (first : String) (draws : Nat → String) : FullName :=
  ⟨first, (lastNameLoop first draws 0 99).2,
    first ++ " " ++ (lastNameLoop first draws 0 99).2⟩

/-- The body of `NameGen.generateMany`: `fuel` counts remaining permitted
attempts (`maxAttempts - attempts`), `need` the results still missing
(`count - results.length`), `seen` the lowercased `.full` keys already
produced.  Deduplication is on `name.full.toLowerCase()`. -/
def nameManyGo (gen : Nat → FullName) : Nat → Nat → Nat → List String → List FullName
  | 0, _, _, _ => []
  | _ + 1, 0, _, _ => []
  | fuel + 1, need + 1, attempt, seen =>
    if seen.contains (strLower (gen attempt).full)
    then nameManyGo gen fuel (need + 1) (attempt + 1) seen
    else gen attempt :: nameManyGo gen fuel need (attempt + 1) (strLower (gen attempt).full :: seen)

/-- `NameGen.generateMany(count)`: cap `count * 50` total attempts. -/
def nameGenerateMany (count : Int) (gen : Nat → FullName) : List FullName :=
  nameManyGo gen (count * 50).toNat count.toNat 0 []

/-- The body of `UsernameGen.generateMany`: like `nameManyGo` but the
`seen` set holds the usernames themselves. -/
def usernameManyGo (gen : Nat → String) : Nat → Nat → Nat → List String → List String
  | 0, _, _, _ => []
  | _ + 1, 0, _, _ => []
  | fuel + 1, need + 1, attempt, seen =>
    if seen.contains (gen attempt)
    then usernameManyGo gen fuel (need + 1) (attempt + 1) seen
    else gen attempt :: usernameManyGo gen fuel need (attempt + 1) (gen attempt :: seen)

/-- `UsernameGen.generateMany(count, opts, names)`: cap `count * 100`. -/
def usernameGenerateMany (count : Int) (gen : Nat → String) : List String :=
  usernameManyGo gen (count * 100).toNat count.toNat 0 []

/-- `String(m + 1).padStart(2, '0')` / day analogue of `formatDate`. -/
def pad2 (n : Nat) : String := padStartZeros 2 (toString n)

/-- `MONTH_NAMES[m]`. -/
def monthName (m : Nat) : String :=
  ["January", "February", "March", "April", "May", "June",
   "July", "August", "September", "October", "November", "December"].getD m ""

/-- `format(date, fmt)` from `DOBGen`: `iso`, `us`, `eu`, `long`;
anything else falls back to `iso` (the `js` default arm; the TS `switch`
is exhaustive over the same four ids). -/
def formatDate (d : SimpleDate) (fmt : String) : String :=
  if fmt = "iso" then toString d.year ++ "-" ++ pad2 (d.month + 1) ++ "-" ++ pad2 d.day
  else if fmt = "us" then pad2 (d.month + 1) ++ "/" ++ pad2 d.day ++ "/" ++ toString d.year
  else if fmt = "eu" then pad2 d.day ++ "/" ++ pad2 (d.month + 1) ++ "/" ++ toString d.year
  else if fmt = "long" then monthName d.month ++ " " ++ toString d.day ++ ", " ++ toString d.year
  else toString d.year ++ "-" ++ pad2 (d.month + 1) ++ "-" ++ pad2 d.day

/-- `DOBGen.generateMany`'s `Array.from({length: count}, () => ...)`
callback iteration: each element formats a fresh `generateDate(opts)`,
threading the entropy. -/
def dobManyGo (minAge maxAge : Int) (fmt : String) (today : SimpleDate) :
    Nat → List Nat → Except JsError (Option (List String))
  | 0, _ => .ok (some [])
  | k + 1, draws =>
    if minAge < 1 ∨ maxAge < 1 then .error .invalidArgument
    else if minAge > maxAge then .error .invalidArgument
    else
      match dobSample minAge maxAge today draws with
      | none => .ok none
      | some (dob, rest) =>
        match dobManyGo minAge maxAge fmt today k rest with
        | .error e => .error e
        | .ok none => .ok none
        | .ok (some tail) => .ok (some (formatDate dob fmt :: tail))

/-- `DOBGen.generateMany(count, opts)` (`src`/`js` variant):
`Array.from({length: count})` clamps a non-positive `count` to zero
elements, so the callback — and with it the age validation of
`generateDate` — never runs for `count ≤ 0`. -/
def dobGenerateMany (count : Int) (minAge maxAge : Int) (fmt : String)
    (today : SimpleDate) (draws : List Nat) : Except JsError (Option (List String)) :=
  dobManyGo minAge maxAge fmt today count.toNat draws

/-! ## Theorems -/

/-- When `max > 2^32`, `2^32 % max = 2^32` so the rejection threshold is `0`
and the rejection loop accepts nothing. -/
theorem rejectionRun_eq_none_of_threshold_zero (max : Nat) (h : rngThreshold max = 0) :
    ∀ draws : List Nat, rejectionRun max draws = none := by
  intro draws
  induction draws with
  | nil => rfl
  | cons d ds ih => simp [rejectionRun, h, ih]

/-- Helper for the residue count: the accepted values `v < q * m` with
`v % m = r` are exactly `r, r + m, …, r + (q-1) * m`. -/
theorem card_filter_mod_eq (m q r N : Nat) (hm : 0 < m) (hr : r < m) (hN : q * m ≤ N) :
    ((Finset.range N).filter (fun v => v < q * m ∧ v % m = r)).card = q := by
  have key : ((Finset.range N).filter (fun v => v < q * m ∧ v % m = r)).card
      = (Finset.range q).card := by
    apply Finset.card_nbij' (fun v => v / m) (fun i => r + i * m)
    · intro v hv
      simp only [Finset.mem_filter, Finset.mem_range] at hv
      simp only [Finset.mem_range]
      have hv' : v < m * q := by rw [Nat.mul_comm]; omega
      exact Nat.div_lt_of_lt_mul hv'
    · intro i hi
      simp only [Finset.mem_range] at hi
      simp only [Finset.mem_filter, Finset.mem_range]
      have h1 : r + i * m < q * m := by
        calc r + i * m < m + i * m := by omega
        _ = (i + 1) * m := by ring
        _ ≤ q * m := Nat.mul_le_mul_right m (by omega)
      refine ⟨by omega, h1, ?_⟩
      rw [Nat.add_mul_mod_self_right, Nat.mod_eq_of_lt hr]
    · intro v hv
      simp only [Finset.mem_filter, Finset.mem_range] at hv
      obtain ⟨_, _, hmod⟩ := hv
      conv_rhs => rw [← Nat.mod_add_div v m]
      rw [hmod, Nat.mul_comm]
    · intro i hi
      simp only [Finset.mem_range] at hi
      rw [Nat.add_mul_div_right _ _ hm, Nat.div_eq_of_lt hr]
      omega
  rw [key, Finset.card_range]

/-- The rejection threshold is the largest multiple of `max` not
exceeding `2^32`. -/
theorem rngThreshold_eq (max : Nat) : rngThreshold max = 2 ^ 32 / max * max := by
  unfold rngThreshold
  rw [Nat.mul_comm]
  have := Nat.div_add_mod (2 ^ 32) max
  omega

/-- C2.  For `1 ≤ max ≤ 2^32`, `randomInt` is exact rejection sampling:
any value accepted is `< max`; a draw at or above the threshold
`⌊2^32 / max⌋ * max` is skipped and the next draw considered; the first
accepted draw is reduced `% max`; each residue `r < max` is hit by exactly
`⌊2^32 / max⌋` of the acceptable 32-bit values; and `max = 1` returns `0`
without consuming entropy (even an empty draw list succeeds). -/
theorem randomInt_rejection_sampling (max : Int) (h1 : 1 ≤ max) (h2 : max ≤ 2 ^ 32) :
    (∀ (draws : List Nat) (r : Nat), randomIntTS max draws = .ok (some r) → (r : Int) < max) ∧
    (∀ (d : Nat) (ds : List Nat), rngThreshold max.toNat ≤ d →
        randomIntTS max (d :: ds) = randomIntTS max ds) ∧
    (∀ (d : Nat) (ds : List Nat), d < rngThreshold max.toNat →
        randomIntTS max (d :: ds) = .ok (some (d % max.toNat))) ∧
    (∀ r : Nat, (r : Int) < max →
        ((Finset.range (2 ^ 32)).filter
          (fun v => v < rngThreshold max.toNat ∧ v % max.toNat = r)).card
          = 2 ^ 32 / max.toNat) ∧
    (max = 1 → ∀ draws : List Nat, randomIntTS max draws = .ok (some 0)) := by
  have hpos : (0 : Int) < max := by omega
  have hnle : ¬ max ≤ 0 := by omega
  have hngt : ¬ max > 2 ^ 32 := by omega
  have hmpos : 0 < max.toNat := by omega
  refine ⟨?_, ?_, ?_, ?_, ?_⟩
  · intro draws r hr
    simp only [randomIntTS, if_neg hnle, if_neg hngt] at hr
    by_cases h1' : max.toNat = 1
    · simp only [randomIntRun, if_pos h1'] at hr
      simp at hr
      omega
    · simp only [randomIntRun, if_neg h1'] at hr
      induction draws with
      | nil => simp [rejectionRun] at hr
      | cons d ds ih =>
        simp only [rejectionRun] at hr
        by_cases hd : d < rngThreshold max.toNat
        · rw [if_pos hd] at hr
          simp at hr
          have : d % max.toNat < max.toNat := Nat.mod_lt _ hmpos
          omega
        · rw [if_neg hd] at hr
          exact ih hr
  · intro d ds hd
    simp only [randomIntTS, if_neg hnle, if_neg hngt]
    by_cases h1' : max.toNat = 1
    · simp [randomIntRun, h1']
    · simp only [randomIntRun, if_neg h1', rejectionRun, if_neg (by omega : ¬ d < rngThreshold max.toNat)]
  · intro d ds hd
    simp only [randomIntTS, if_neg hnle, if_neg hngt]
    by_cases h1' : max.toNat = 1
    · simp [randomIntRun, h1', Nat.mod_one]
    · simp [randomIntRun, if_neg h1', rejectionRun, if_pos hd]
  · intro r hr
    have hq : rngThreshold max.toNat = 2 ^ 32 / max.toNat * max.toNat := rngThreshold_eq _
    have hle : 2 ^ 32 / max.toNat * max.toNat ≤ 2 ^ 32 := Nat.div_mul_le_self _ _
    rw [hq]
    exact card_filter_mod_eq max.toNat (2 ^ 32 / max.toNat) r (2 ^ 32) hmpos (by omega) hle
  · intro h1'' draws
    subst h1''
    rfl

/-- Witness for `randomInt_rejection_sampling` at `max = 12` with concrete
draws: the first conjunct at draw list `[5]`, result `5`. -/
theorem randomInt_rejection_sampling_witness :
    (5 : Int) < 12 ∧
    randomIntTS 12 ([4294967293, 7] : List Nat) = randomIntTS 12 ([7] : List Nat) ∧
    randomIntTS 12 ([7] : List Nat) = .ok (some (7 % (12 : Int).toNat)) ∧
    ((Finset.range (2 ^ 32)).filter
        (fun v => v < rngThreshold (12 : Int).toNat ∧ v % (12 : Int).toNat = 5)).card
      = 2 ^ 32 / (12 : Int).toNat ∧
    randomIntTS 1 [] = .ok (some 0) := by
  have h := randomInt_rejection_sampling 12 (by norm_num) (by norm_num)
  have h1 := randomInt_rejection_sampling 1 (by norm_num) (by norm_num)
  refine ⟨by norm_num, ?_, ?_, ?_, ?_⟩
  · exact h.2.1 4294967293 [7] (by decide)
  · exact h.2.2.1 7 [] (by decide)
  · exact h.2.2.2.1 5 (by norm_num)
  · exact h1.2.2.2.2 rfl []

/-- C1.  Validation of `randomInt`: for `max ≤ 0` every variant raises
`InvalidArgument` before touching entropy; for `max = 2^32 + 1` the
`src/rng.ts` variant carrying the explicit bound check raises, but the
`js/rng.js` / bundled variant (which its own doc comment restricts to
`max ≤ 2^32`) instead enters a rejection loop whose threshold is `0`, so
every 32-bit draw is rejected: the loop never terminates (modelled here as
exhausting every finite draw list). -/
theorem randomInt_oversized_max_diverges :
    (∀ (max : Int) (draws : List Nat), max ≤ 0 →
        randomIntTS max draws = .error .invalidArgument ∧
        randomIntJS max draws = .error .invalidArgument) ∧
    (∀ draws : List Nat, randomIntTS (2 ^ 32 + 1) draws = .error .invalidArgument) ∧
    (∀ draws : List Nat, randomIntJS (2 ^ 32 + 1) draws = .ok none) := by
  refine ⟨?_, ?_, ?_⟩
  · intro max draws hle
    exact ⟨by simp [randomIntTS, if_pos hle], by simp [randomIntJS, if_pos hle]⟩
  · intro draws
    simp [randomIntTS]
  · intro draws
    have hth : rngThreshold ((2 : Int) ^ 32 + 1).toNat = 0 := by decide
    have hmax1 : ¬ ((2 : Int) ^ 32 + 1).toNat = 1 := by decide
    simp only [randomIntJS, if_neg (by norm_num : ¬ (2 : Int) ^ 32 + 1 ≤ 0)]
    rw [randomIntRun, if_neg hmax1, rejectionRun_eq_none_of_threshold_zero _ hth draws]
    rfl

/-- Witness for `randomInt_oversized_max_diverges`: instantiated at
`max = -5` with an empty draw list. -/
theorem randomInt_oversized_max_diverges_witness :
    randomIntTS (-5) [] = .error .invalidArgument ∧
    randomIntJS (-5) [] = .error .invalidArgument := by
  exact randomInt_oversized_max_diverges.1 (-5) [] (by norm_num)

/-- `Char.ofNat` on a valid codepoint round-trips through `toNat`. -/
theorem char_toNat_ofNat_valid (n : Nat) (h : n.isValidChar) : (Char.ofNat n).toNat = n := by
  unfold Char.ofNat
  rw [dif_pos h]
  unfold Char.ofNatAux Char.toNat
  simp [UInt32.toNat]

/-- `toUpper` fixes every character outside `a`–`z`. -/
theorem toUpper_eq_self (c : Char) (h : ¬ (c.toNat ≥ 97 ∧ c.toNat ≤ 122)) : c.toUpper = c := by
  unfold Char.toUpper
  simp only [if_neg h]

/-- `toUpper` maps `a`–`z` to the codepoint 32 below. -/
theorem toNat_toUpper_of_lower (c : Char) (h : c.toNat ≥ 97 ∧ c.toNat ≤ 122) :
    c.toUpper.toNat = c.toNat - 32 := by
  unfold Char.toUpper
  simp only [if_pos h]
  exact char_toNat_ofNat_valid _ (Or.inl (by omega))

/-- Upper-casing a character is idempotent. -/
theorem toUpper_idem (c : Char) : c.toUpper.toUpper = c.toUpper := by
  by_cases h : c.toNat ≥ 97 ∧ c.toNat ≤ 122
  · have h2 := toNat_toUpper_of_lower c h
    exact toUpper_eq_self _ (by omega)
  · rw [toUpper_eq_self c h]
    exact toUpper_eq_self c h

/-- Upper-casing never creates a `.`/`_` delimiter. -/
theorem isCaseDelim_toUpper (c : Char) (h : isCaseDelim c.toUpper = true) :
    isCaseDelim c = true := by
  by_cases hr : c.toNat ≥ 97 ∧ c.toNat ≤ 122
  · exfalso
    have h2 := toNat_toUpper_of_lower c hr
    simp only [isCaseDelim, Bool.or_eq_true, decide_eq_true_eq] at h
    rcases h with h | h
    · have : c.toUpper.toNat = 46 := by rw [h]; rfl
      omega
    · have : c.toUpper.toNat = 95 := by rw [h]; rfl
      omega
  · rwa [toUpper_eq_self c hr] at h

/-- `split` always returns at least one segment. -/
theorem splitOnPred_ne_nil (p : Char → Bool) (l : List Char) : splitOnPred p l ≠ [] := by
  cases l with
  | nil => simp [splitOnPred]
  | cons c cs =>
    unfold splitOnPred
    split
    · simp
    · cases h : splitOnPred p cs <;> simp

/-- No segment produced by `split` contains a separator character. -/
theorem mem_splitOnPred (p : Char → Bool) :
    ∀ (l : List Char) (seg : List Char), seg ∈ splitOnPred p l → ∀ c ∈ seg, p c = false := by
  intro l
  induction l with
  | nil =>
    intro seg hseg c hc
    simp [splitOnPred] at hseg
    subst hseg
    simp at hc
  | cons a l ih =>
    intro seg hseg c hc
    unfold splitOnPred at hseg
    by_cases hp : p a
    · rw [if_pos hp] at hseg
      rcases List.mem_cons.mp hseg with h | h
      · subst h; simp at hc
      · exact ih seg h c hc
    · rw [if_neg hp] at hseg
      cases hsplit : splitOnPred p l with
      | nil => exact absurd hsplit (splitOnPred_ne_nil p l)
      | cons s ss =>
        rw [hsplit] at hseg
        rcases List.mem_cons.mp hseg with h | h
        · subst h
          rcases List.mem_cons.mp hc with h' | h'
          · subst h'; exact Bool.eq_false_iff.mpr hp
          · exact ih s (hsplit ▸ List.mem_cons_self s ss) c h'
        · exact ih seg (hsplit ▸ List.mem_cons_of_mem s h) c hc

/-- `capitalise` keeps a delimiter-free segment delimiter-free. -/
theorem capitaliseL_no_delim (seg : List Char) (h : ∀ c ∈ seg, isCaseDelim c = false) :
    ∀ c ∈ capitaliseL seg, isCaseDelim c = false := by
  cases seg with
  | nil => simp [capitaliseL]
  | cons c cs =>
    intro c' hc'
    rcases List.mem_cons.mp hc' with h' | h'
    · subst h'
      by_cases hb : isCaseDelim c.toUpper = true
      · have := isCaseDelim_toUpper c hb
        have := h c (List.mem_cons_self c cs)
        simp_all
      · simpa using hb
    · exact h c' (List.mem_cons_of_mem c h')

/-- A concatenation of capitalised segments is a fixed point of
`capitalise`: its first character, if any, is already upper-cased. -/
theorem capitaliseL_flatten (segs : List (List Char)) :
    capitaliseL ((segs.map capitaliseL).flatten) = (segs.map capitaliseL).flatten := by
  induction segs with
  | nil => rfl
  | cons seg segs ih =>
    cases seg with
    | nil => simpa [capitaliseL] using ih
    | cons c cs => simp [capitaliseL, toUpper_idem]

/-- `capitalise` only touches the head of a non-empty left factor. -/
theorem capitaliseL_append_left (p R : List Char) (hp : p ≠ []) :
    capitaliseL (p ++ R) = capitaliseL p ++ R := by
  cases p with
  | nil => simp at hp
  | cons c cs => simp [capitaliseL]

/-- Characters of capitalised delimiter-free segments are delimiter-free. -/
theorem no_delim_flatten_cap (L : List (List Char))
    (h : ∀ seg ∈ L, ∀ c ∈ seg, isCaseDelim c = false) :
    ∀ c ∈ (L.map capitaliseL).flatten, isCaseDelim c = false := by
  intro c hc
  rw [List.mem_flatten] at hc
  obtain ⟨l, hl, hcl⟩ := hc
  rw [List.mem_map] at hl
  obtain ⟨seg, hseg, rfl⟩ := hl
  exact capitaliseL_no_delim seg (h seg hseg) c hcl

/-- C10.  For every input string, the `pascal` transform is the `camel`
transform with its first character upper-cased (so the two agree beyond
the first character), and neither output contains a `.` or `_`
delimiter. -/
theorem pascal_eq_capitalised_camel (s : String) :
    pascal s = capitalise (camel s) ∧
    ((camel s).data.all (fun c => ! isCaseDelim c)) = true ∧
    ((pascal s).data.all (fun c => ! isCaseDelim c)) = true := by
  have hsegs := splitOnPred_ne_nil isCaseDelim (s.data.map Char.toLower)
  cases h : splitOnPred isCaseDelim (s.data.map Char.toLower) with
  | nil => exact absurd h hsegs
  | cons p ps =>
    have hmem : ∀ seg ∈ p :: ps, ∀ c ∈ seg, isCaseDelim c = false := by
      intro seg hseg
      exact mem_splitOnPred isCaseDelim _ seg (h ▸ hseg)
    have hp : ∀ c ∈ p, isCaseDelim c = false := hmem p (List.mem_cons_self p ps)
    have hps : ∀ seg ∈ ps, ∀ c ∈ seg, isCaseDelim c = false :=
      fun seg hseg => hmem seg (List.mem_cons_of_mem p hseg)
    refine ⟨?_, ?_, ?_⟩
    · show pascal s = capitalise (camel s)
      unfold pascal camel capitalise
      rw [h]
      cases p with
      | nil =>
        simp only [List.map_cons, List.flatten_cons, List.nil_append]
        exact congrArg String.mk (capitaliseL_flatten ps).symm
      | cons c cs =>
        simp only [List.map_cons, List.flatten_cons]
        exact congrArg String.mk (capitaliseL_append_left (c :: cs) _ (by simp)).symm
    · unfold camel
      rw [h]
      rw [List.all_eq_true]
      intro c hc
      simp only [Bool.not_eq_true']
      rcases List.mem_append.mp hc with h' | h'
      · exact hp c h'
      · exact no_delim_flatten_cap ps hps c h'
    · unfold pascal
      rw [h]
      rw [List.all_eq_true]
      intro c hc
      simp only [Bool.not_eq_true']
      exact no_delim_flatten_cap (p :: ps) hmem c hc

/-- C4 counterexample.  With the pinned name `james`/`wilson` and digit
draw `42`, the generator returns `"Jameswilson42"`: the raw string
`jameswilson42` contains no `.`/`_` delimiter, so `pascal` capitalises
only its first character and the result does not match
`^JamesWilson\d{2}$` (the `W` stays lower-case). -/
theorem usernameGen_pascal_counterexample :
    usernameGenerate "firstlast_digits" "pascal" ⟨"james", "wilson", "james wilson"⟩ 42
      = "Jameswilson42" ∧
    matchesWordDigits "JamesWilson".data 2 "Jameswilson42" = false := by
  exact ⟨rfl, by decide⟩

/-- C4 amended.  For every value `v < 100` accepted by the
`randomDigits(2)` draw, the generated username matches
`^Jameswilson\d{2}$`. -/
theorem usernameGen_pascal_amended :
    ∀ v : Nat, v < 100 →
      matchesWordDigits "Jameswilson".data 2
        (usernameGenerate "firstlast_digits" "pascal"
          ⟨"james", "wilson", "james wilson"⟩ v) = true := by decide

/-- Witness for `usernameGen_pascal_amended` at `v = 7`. -/
theorem usernameGen_pascal_amended_witness :
    matchesWordDigits "Jameswilson".data 2
      (usernameGenerate "firstlast_digits" "pascal"
        ⟨"james", "wilson", "james wilson"⟩ 7) = true :=
  usernameGen_pascal_amended 7 (by norm_num)

/-- C5.  On the source whose lines are `Jordan`, `jordan`,
`  Anne-Marie  `, `123`, `a`, the cleaning pipeline yields exactly
`Jordan` then `Anne-Marie`, and `loadFile` returns them. -/
theorem cleanNames_reference_input :
    cleanNames "Jordan\njordan\n  Anne-Marie  \n123\na" = ["Jordan", "Anne-Marie"] ∧
    loadFile (some "Jordan\njordan\n  Anne-Marie  \n123\na") = .ok ["Jordan", "Anne-Marie"] :=
  ⟨rfl, rfl⟩

/-- C8.  `init` is atomic: on any failing load the pools are exactly what
they were before the call; a never-initialised store is not ready and both
getters raise `NotInitialized` whatever the entropy; a successful `init`
leaves both pools populated and non-empty. -/
theorem storeInit_atomic :
    (∀ (s : StoreState) (ff fl : Option String) (e : JsError),
        (storeInit s ff fl).2 = some e → (storeInit s ff fl).1 = s) ∧
    storeIsReady freshStore = false ∧
    (∀ draws : List Nat, getFirstName freshStore draws = .error .notInit) ∧
    (∀ draws : List Nat, getLastName freshStore draws = .error .notInit) ∧
    (∀ (s : StoreState) (ff fl : Option String) (s' : StoreState),
        storeInit s ff fl = (s', none) →
        ∃ f l, s'.firstNames = some f ∧ s'.lastNames = some l ∧ f ≠ [] ∧ l ≠ []) := by
  refine ⟨?_, rfl, fun _ => rfl, fun _ => rfl, ?_⟩
  · intro s ff fl e h
    unfold storeInit at h ⊢
    cases hf : loadFile ff <;> cases hl : loadFile fl <;> simp [hf, hl] at h ⊢
  · intro s ff fl s' h
    unfold storeInit at h
    cases hf : loadFile ff with
    | error e => rw [hf] at h; simp at h
    | ok f =>
      cases hl : loadFile fl with
      | error e => rw [hf, hl] at h; simp at h
      | ok l =>
        rw [hf, hl] at h
        simp only [Prod.mk.injEq] at h
        refine ⟨f, l, by rw [← h.1], by rw [← h.1], ?_, ?_⟩
        · unfold loadFile at hf
          cases ff with
          | none => simp at hf
          | some raw =>
            simp only at hf
            by_cases he : (cleanNames raw).isEmpty
            · rw [if_pos he] at hf; cases hf
            · rw [if_neg he] at hf
              cases hf
              simpa [List.isEmpty_iff] using he
        · unfold loadFile at hl
          cases fl with
          | none => simp at hl
          | some raw =>
            simp only at hl
            by_cases he : (cleanNames raw).isEmpty
            · rw [if_pos he] at hl; cases hl
            · rw [if_neg he] at hl
              cases hl
              simpa [List.isEmpty_iff] using he

/-- Witness for `storeInit_atomic`: a failing `init` (unavailable first
source) leaves the fresh store untouched, and a successful `init` on two
one-name sources populates both pools. -/
theorem storeInit_atomic_witness :
    (storeInit freshStore none (some "Li")).1 = freshStore ∧
    (∃ f l, (⟨some ["Jo"], some ["Li"]⟩ : StoreState).firstNames = some f ∧
      (⟨some ["Jo"], some ["Li"]⟩ : StoreState).lastNames = some l ∧ f ≠ [] ∧ l ≠ []) := by
  constructor
  · exact storeInit_atomic.1 freshStore none (some "Li") .sourceUnavailable rfl
  · exact storeInit_atomic.2.2.2.2 freshStore (some "Jo") (some "Li") _ rfl

/-- C3 counterexample.  On 2026-01-15 (month 0-indexed) with draws
`[5, 0]`, `generateDate({minAge: 30, maxAge: 30})` returns 1996-06-01
(`birthYear = 2026 - 30`, month `5`, day `1`), whose implied age on
2026-01-15 is 29, not 30: the birthday is still five months ahead. -/
theorem generateDate_age29_counterexample :
    generateDateTS 30 30 ⟨2026, 0, 15⟩ [5, 0] = .ok (some ⟨1996, 5, 1⟩) ∧
    impliedAge ⟨2026, 0, 15⟩ ⟨1996, 5, 1⟩ = 29 :=
  ⟨rfl, rfl⟩

/-- C3 amended.  In the `src`/`js` implementation,
`generateDate({minAge: 30, maxAge: 30})` never raises and every produced
date has birth year exactly `today.year - 30`, so its implied age is 29
or 30 — exactly 30 precisely when the generated month/day does not fall
after today's; the bundled (`part_004`) variant instead rejects the equal
ages with `InvalidArgument`. -/
theorem generateDate_exact_age_amended :
    (∀ (today : SimpleDate) (draws : List Nat) (dob : SimpleDate),
        generateDateTS 30 30 today draws = .ok (some dob) →
        dob.year = today.year - 30 ∧
        (impliedAge today dob = 29 ∨ impliedAge today dob = 30) ∧
        (impliedAge today dob = 30 ↔ laterInYear dob today = false)) ∧
    (∀ (today : SimpleDate) (draws : List Nat),
        generateDateBundled 30 30 today draws = .error .invalidArgument) := by
  constructor
  · intro today draws dob h
    simp only [generateDateTS, if_neg (by omega : ¬ ((30 : Int) < 1 ∨ (30 : Int) < 1)),
      if_neg (by omega : ¬ ((30 : Int) > 30))] at h
    unfold dobSample at h
    simp only [show randomRangeRun 30 30 draws = some ((30 : Int), draws) from rfl] at h
    cases h1 : randomIntRun 12 draws with
    | none => simp [h1] at h
    | some p1 =>
      obtain ⟨m1, rest1⟩ := p1
      simp only [h1] at h
      cases h2 : randomIntRun (daysInMonth (today.year - 30) m1) rest1 with
      | none => simp [h2] at h
      | some p2 =>
        obtain ⟨d0, rest2⟩ := p2
        simp [h2] at h
        subst h
        refine ⟨rfl, ?_, ?_⟩
        · by_cases hl : laterInYear ⟨today.year - 30, m1, 1 + d0⟩ today = true
          · left; simp [impliedAge, hl]
          · right
            simp only [Bool.not_eq_true] at hl
            simp [impliedAge, hl]
        · by_cases hl : laterInYear ⟨today.year - 30, m1, 1 + d0⟩ today = true
          · simp [impliedAge, hl]
          · simp only [Bool.not_eq_true] at hl
            simp [impliedAge, hl]
  · intro today draws
    simp [generateDateBundled]

/-- Witness for `generateDate_exact_age_amended`, instantiated on the
concrete run of the counterexample input. -/
theorem generateDate_exact_age_amended_witness :
    ((⟨1996, 5, 1⟩ : SimpleDate).year = (⟨2026, 0, 15⟩ : SimpleDate).year - 30 ∧
      (impliedAge ⟨2026, 0, 15⟩ ⟨1996, 5, 1⟩ = 29 ∨ impliedAge ⟨2026, 0, 15⟩ ⟨1996, 5, 1⟩ = 30) ∧
      (impliedAge ⟨2026, 0, 15⟩ ⟨1996, 5, 1⟩ = 30 ↔ laterInYear ⟨1996, 5, 1⟩ ⟨2026, 0, 15⟩ = false)) ∧
    generateDateBundled 30 30 ⟨2026, 0, 15⟩ [] = .error .invalidArgument :=
  ⟨generateDate_exact_age_amended.1 ⟨2026, 0, 15⟩ [5, 0] ⟨1996, 5, 1⟩ rfl,
    generateDate_exact_age_amended.2 ⟨2026, 0, 15⟩ []⟩

/-- C7 counterexample.  The bundled (`part_004`) `generateDate` checks
`minAge >= maxAge`, so the exact-age request `{minAge: 30, maxAge: 30}` —
which the claim says must be accepted — raises `InvalidArgument` there,
while the `src`/`js` implementation accepts it. -/
theorem generateDate_equal_ages_counterexample :
    generateDateBundled 30 30 ⟨2026, 0, 15⟩ [5, 0] = .error .invalidArgument ∧
    generateDateTS 30 30 ⟨2026, 0, 15⟩ [5, 0] = .ok (some ⟨1996, 5, 1⟩) :=
  ⟨rfl, rfl⟩

/-- C7 amended.  On the domain where the date arithmetic is exact —
every reachable birth year `today.year - ageYears`,
`ageYears ∈ [minAge, maxAge]`, inside the JavaScript `Date` range
(hypotheses `-271000 ≤ today.year - maxAge` and
`today.year - minAge ≤ 275000`), and the `randomRange` span within the
`randomInt` bound (`maxAge - minAge + 1 ≤ 2^32`) — `generateDate` of
`src/dob-gen.ts` / `js/dob-gen.js` fails exactly when `minAge < 1`,
`maxAge < 1` or `minAge > maxAge` (equality accepted); the bundled
variant fails exactly when `minAge < 1`, `maxAge < 1` or
`minAge ≥ maxAge` (equality also rejected).  In particular
`{minAge: 5, maxAge: 1}` fails in both.  Outside the hypothesised range
the program has further failure paths (`getDate()` returning `NaN`, the
guarded `randomRange` span check) that the embedding does not model, so
nothing is asserted there. -/
theorem generateDate_validation_amended :
    ∀ (minAge maxAge : Int) (today : SimpleDate) (draws : List Nat),
      -271000 ≤ today.year - maxAge →
      today.year - minAge ≤ 275000 →
      maxAge - minAge + 1 ≤ 2 ^ 32 →
      (isError (generateDateTS minAge maxAge today draws) = true ↔
        (minAge < 1 ∨ maxAge < 1 ∨ minAge > maxAge)) ∧
      (isError (generateDateBundled minAge maxAge today draws) = true ↔
        (minAge < 1 ∨ maxAge < 1 ∨ minAge ≥ maxAge)) ∧
      isError (generateDateTS 5 1 today draws) = true ∧
      isError (generateDateBundled 5 1 today draws) = true := by
  intro minAge maxAge today draws _hyearlo _hyearhi _hspan
  refine ⟨?_, ?_, ?_, ?_⟩
  · by_cases h1 : minAge < 1 ∨ maxAge < 1
    · simp only [generateDateTS, if_pos h1, isError]
      constructor
      · intro _; omega
      · intro _; trivial
    · by_cases h2 : minAge > maxAge
      · simp only [generateDateTS, if_neg h1, if_pos h2, isError]
        constructor
        · intro _; omega
        · intro _; trivial
      · simp only [generateDateTS, if_neg h1, if_neg h2, isError]
        constructor
        · intro hfalse; cases hfalse
        · intro habs; omega
  · by_cases h1 : minAge < 1 ∨ maxAge < 1
    · simp only [generateDateBundled, if_pos h1, isError]
      constructor
      · intro _; omega
      · intro _; trivial
    · by_cases h2 : minAge ≥ maxAge
      · simp only [generateDateBundled, if_neg h1, if_pos h2, isError]
        constructor
        · intro _; omega
        · intro _; trivial
      · simp only [generateDateBundled, if_neg h1, if_neg h2, isError]
        constructor
        · intro hfalse; cases hfalse
        · intro habs; omega
  · simp [generateDateTS, isError]
  · simp [generateDateBundled, isError]

/-- Witness for `generateDate_validation_amended`, instantiated at the
exact-age request `{minAge: 30, maxAge: 30}` on 2026-01-15 (birth year
1996, well inside the `Date` range; span 1): the `src`/`js` variant
accepts it, the bundled variant rejects it. -/
theorem generateDate_validation_amended_witness :
    (isError (generateDateTS 30 30 ⟨2026, 0, 15⟩ [5, 0]) = true ↔
      ((30 : Int) < 1 ∨ (30 : Int) < 1 ∨ (30 : Int) > 30)) ∧
    (isError (generateDateBundled 30 30 ⟨2026, 0, 15⟩ [5, 0]) = true ↔
      ((30 : Int) < 1 ∨ (30 : Int) < 1 ∨ (30 : Int) ≥ 30)) ∧
    isError (generateDateTS 5 1 ⟨2026, 0, 15⟩ [5, 0]) = true ∧
    isError (generateDateBundled 5 1 ⟨2026, 0, 15⟩ [5, 0]) = true :=
  generateDate_validation_amended 30 30 ⟨2026, 0, 15⟩ [5, 0]
    (by norm_num) (by norm_num) (by norm_num)

/-- Behaviour of the retry loop: the draw count advances by at least one
and at most `fuel + 1`, the returned name is the last draw made, and it
differs case-insensitively from `first` unless the fuel ran out. -/
theorem lastNameLoop_spec (first : String) (draws : Nat → String) :
    ∀ (fuel i : Nat),
      i + 1 ≤ (lastNameLoop first draws i fuel).1 ∧
      (lastNameLoop first draws i fuel).1 ≤ i + 1 + fuel ∧
      (lastNameLoop first draws i fuel).2 = draws ((lastNameLoop first draws i fuel).1 - 1) ∧
      (strLower (lastNameLoop first draws i fuel).2 ≠ strLower first ∨
        (lastNameLoop first draws i fuel).1 = i + 1 + fuel) := by
  intro fuel
  induction fuel with
  | zero =>
    intro i
    simp [lastNameLoop]
  | succ fuel ih =>
    intro i
    by_cases h : strLower (draws i) = strLower first
    · have := ih (i + 1)
      simp only [lastNameLoop, if_pos h]
      refine ⟨by omega, by omega, this.2.2.1, ?_⟩
      rcases this.2.2.2 with h' | h'
      · exact Or.inl h'
      · exact Or.inr (by omega)
    · simp [lastNameLoop, if_neg h, h]

/-- C6.  `NameGen.generate` makes between 1 and 100 last-name draws,
returns `full = first ++ " " ++ last` with the drawn first name and the
last attempted last name, and `last` differs case-insensitively from
`first` unless the 100-attempt cap was hit, in which case the 100th
draw is accepted regardless. -/
theorem nameGenerate_spec (first : String) (draws : Nat → String) :
    1 ≤ (lastNameLoop first draws 0 99).1 ∧
    (lastNameLoop first draws 0 99).1 ≤ 100 ∧
    (nameGenerate first draws).full
      = (nameGenerate first draws).first ++ " " ++ (nameGenerate first draws).last ∧
    (nameGenerate first draws).first = first ∧
    (nameGenerate first draws).last = draws ((lastNameLoop first draws 0 99).1 - 1) ∧
    (strLower (nameGenerate first draws).last ≠ strLower first ∨
      (lastNameLoop first draws 0 99).1 = 100) := by
  have h := lastNameLoop_spec first draws 99 0
  exact ⟨h.1, h.2.1, rfl, rfl, h.2.2.1, h.2.2.2⟩

/-- C9 counterexample.  `generateMany(-3)` raises nothing anywhere: the
name and username loops return the empty list (their `while` guard
`results.length < count` is immediately false) and the DOB batch builds
zero elements, never reaching `generateDate`'s validation. -/
theorem generateMany_nonpositive_counterexample :
    nameGenerateMany (-3) (fun _ => ⟨"Jo", "Li", "Jo Li"⟩) = [] ∧
    usernameGenerateMany (-3) (fun _ => "jo.li") = [] ∧
    dobGenerateMany (-3) 20 30 "iso" ⟨2026, 0, 15⟩ [] = .ok (some []) :=
  ⟨rfl, rfl, rfl⟩

/-- C9 amended.  For every non-positive `count`, each batch operation
returns an empty result synchronously, raising no error and consuming no
entropy, rather than failing with `InvalidArgument`. -/
theorem generateMany_nonpositive_amended :
    ∀ count : Int, count ≤ 0 →
      (∀ gen : Nat → FullName, nameGenerateMany count gen = []) ∧
      (∀ gen : Nat → String, usernameGenerateMany count gen = []) ∧
      (∀ (minAge maxAge : Int) (fmt : String) (today : SimpleDate) (draws : List Nat),
        dobGenerateMany count minAge maxAge fmt today draws = .ok (some [])) := by
  intro count hc
  have h50 : (count * 50).toNat = 0 := Int.toNat_of_nonpos (by omega)
  have h100 : (count * 100).toNat = 0 := Int.toNat_of_nonpos (by omega)
  have h0 : count.toNat = 0 := Int.toNat_of_nonpos hc
  refine ⟨?_, ?_, ?_⟩
  · intro gen
    unfold nameGenerateMany
    rw [h50]
    rfl
  · intro gen
    unfold usernameGenerateMany
    rw [h100]
    rfl
  · intro minAge maxAge fmt today draws
    unfold dobGenerateMany
    rw [h0]
    rfl

/-- Witness for `generateMany_nonpositive_amended` at `count = 0`. -/
theorem generateMany_nonpositive_amended_witness :
    nameGenerateMany 0 (fun _ => ⟨"Jo", "Li", "Jo Li"⟩) = [] ∧
    usernameGenerateMany 0 (fun _ => "jo.li") = [] ∧
    dobGenerateMany 0 20 30 "iso" ⟨2026, 0, 15⟩ [] = .ok (some []) := by
  have h := generateMany_nonpositive_amended 0 (by norm_num)
  exact ⟨h.1 _, h.2.1 _, h.2.2 20 30 "iso" ⟨2026, 0, 15⟩ []⟩
